import Mathlib

/-!
Shallow embedding of the `no-literal-string` ESLint rule
(src/lib/rules/no-literal-string.js together with src/lib/helper.js)
of the eslint-plugin-i18next repository, and proofs checking the
specification's claims against it.

The embedding models:
* the ESTree-like syntax tree the rule walks (mutual inductive
  `Node` / `NodeList`, children addressed by index so that a node's
  identity is its access path from the root, mirroring the rule's
  object-identity keyed `WeakSet`s and `Map`);
* the compiled configuration (`generateCalleeWhitelists`,
  `generateTranslatorWhitelists`, the `ignore` / `ignoreProperties` /
  `ignoreTags` options);
* every visitor handler of the rule, entry handlers fired pre-order
  and the `:matches(Literal, TemplateLiteral, JSXText):exit` handler
  fired post-order, with the run's mutable state
  (`visited`, `translationNodes`, `technicalNodes`, `complaints`,
  and the reported findings) passed explicitly;
* the two runtime-crash points of the source (the handler
  `JSXElement > :matches(Literal, TemplateLiteral)` calling the
  undefined `scriptVisitor.JSXText`, and the exit handler reading
  `attribute.name.name` when `getNearestAncestor` returned null)
  as `Except` errors.
-/

namespace I18next

/-- JavaScript coercion of a possibly-undefined string to a string:
`undefined` interpolates/stringifies as `"undefined"`. -/
def jsString (o : Option String) : String := o.getD "undefined"

/-- `helper.js` `isUpperCase`: the regular expression `/^[A-Z_-]+$/`
tested against one character. -/
def isUpperCaseChar (c : Char) : Bool :=
  ('A' ≤ c && c ≤ 'Z') || c == '_' || c == '-'

/-- `helper.js` `isUpperCase(str)`: `/^[A-Z_-]+$/.test(str)` — true iff
the string is nonempty and every character is an ASCII uppercase
letter, an underscore, or a hyphen. Digits do NOT match. -/
def isUpperCase (s : String) : Bool :=
  !s.isEmpty && s.toList.all isUpperCaseChar

/-- After having read `"${"` and at least one character that is not
`'}'`, scan for the closing `'}'` over further non-`'}'` characters:
the tail of the regex `/\$\x7b[^\x7d]+\x7d/`. -/
def holeClose : List Char → Bool
  | [] => false
  | '}' :: _ => true
  | _ :: rest => holeClose rest

/-- After having read `"${"`, the regex `/\$\x7b[^\x7d]+\x7d/` needs at
least one character distinct from `'}'` and then a `'}'`. -/
def holeAfter : List Char → Bool
  | [] => false
  | '}' :: _ => false
  | _ :: rest => holeClose rest

/-- Scan of `/\$\x7b[^\x7d]+\x7d/u.test` over the character list of the
node's source text: some position starts `"${"`, followed by one or
more non-`'}'` characters and a closing `'}'`. -/
def hasHole : List Char → Bool
  | '$' :: '{' :: rest => holeAfter rest || hasHole ('{' :: rest)
  | _ :: rest => hasHole rest
  | [] => false

/-- `/\$\x7b[^\x7d]+\x7d/u.test(text)` on a string. -/
def hasHoleStr (s : String) : Bool := hasHole s.toList

/-- JavaScript whitespace characters removed by `String.prototype.trim`
(the ones relevant to this development). -/
def wsChar (c : Char) : Bool :=
  c == ' ' || c == '\t' || c == '\n' || c == '\r' || c == '\x0b' || c == '\x0c'

/-- JavaScript `str.trim()`: strip leading and trailing whitespace. -/
def jsTrim (s : String) : String :=
  String.mk (((s.toList.dropWhile wsChar).reverse.dropWhile wsChar).reverse)

/-- JavaScript `str.endsWith(suffix)`. -/
def jsEndsWith (s suf : String) : Bool := suf.toList.isSuffixOf s.toList

/-- JavaScript `str.indexOf('.') !== -1`: the string contains a dot. -/
def containsDot (s : String) : Bool := s.toList.contains '.'

/-! ## Configuration

`create(context)` compiles the raw rule options once per run.  A compiled
regular expression is modelled as its `test` function `String → Bool`;
the rule only ever calls `.test` on it. -/

/-- The raw `tag` field of an `ignoreTags` entry: the schema allows a
single string or an array of strings. -/
inductive TagField where
  | one (s : String)
  | many (l : List String)

/-- A compiled `ignoreTags` entry after
`{ tags: typeof entry.tag === 'string' ? [entry.tag] : entry.tag,
   attributes: entry.attributes }`. -/
structure TagEntry where
  tags : List String
  attributes : List String

/-- A raw `ignoreTags` entry as validated by the schema. -/
structure TagEntryRaw where
  tag : TagField
  attributes : List String

/-- The raw options record received by `create` (first element of
`context.options`); every field defaults to the empty list, matching
`(option && option.x) || []`.  `ignore` entries are already-compiled
regular expressions, represented by their `test` functions. -/
structure Options where
  ignore : List (String → Bool) := []
  ignoreCallee : List String := []
  ignoreProperties : List String := []
  ignoreTags : List TagEntryRaw := []
  ignoreTranslatorCallee : List String := []

/-- The `{ simple, complex }` record produced by
`generateCalleeWhitelists` / `generateTranslatorWhitelists`. -/
structure CalleeWhitelists where
  simple : List String
  complex : List String

/-- The `popularCallee` constant of the rule module. -/
def popularCallee : List String :=
  ["addEventListener", "dispatch", "commit", "includes", "indexOf"]

/-- The `ignoreCallee.forEach` loop shared by both whitelist generators:
entries containing a `.` are pushed onto `complex`, the rest onto
`simple`. -/
def splitCallees (base : CalleeWhitelists) (items : List String) :
    CalleeWhitelists :=
  items.foldl
    (fun acc item =>
      if containsDot item then { acc with complex := acc.complex ++ [item] }
      else { acc with simple := acc.simple ++ [item] })
    base

/-- `generateCalleeWhitelists(option)`: base simple list is
`popularCallee`, base complex list is empty. -/
def generateCalleeWhitelists (o : Options) : CalleeWhitelists :=
  splitCallees { simple := popularCallee, complex := [] } o.ignoreCallee

/-- `generateTranslatorWhitelists(option)`: base simple list is
`['i18n', 'i18next', 't', 'T']`, base complex list is
`['i18n.t', 'i18next.t']`. -/
def generateTranslatorWhitelists (o : Options) : CalleeWhitelists :=
  splitCallees
    { simple := ["i18n", "i18next", "t", "T"],
      complex := ["i18n.t", "i18next.t"] }
    o.ignoreTranslatorCallee

/-- The per-run compiled configuration built at the top of `create`. -/
structure Config where
  whitelists : List (String → Bool)
  propWhitelist : List String
  tagAttrWhiteList : List TagEntry
  calleeWhitelists : CalleeWhitelists
  translatorCalleeWhitelists : CalleeWhitelists

/-- The option-compilation prelude of `create`:
`whitelists` is exactly the mapped `ignore` list (no built-in pattern is
added), `tagAttrWhiteList` normalises each `tag` field to a list. -/
def compileConfig (o : Options) : Config where
  whitelists := o.ignore
  propWhitelist := o.ignoreProperties
  tagAttrWhiteList :=
    o.ignoreTags.map fun e =>
      { tags := match e.tag with
          | .one s => [s]
          | .many l => l,
        attributes := e.attributes }
  calleeWhitelists := generateCalleeWhitelists o
  translatorCalleeWhitelists := generateTranslatorWhitelists o

/-- Helper `match(str)` of the rule (named `matchW` here because `match`
is a Lean keyword): `whitelists.some(item => item.test(str))`. -/
def matchW (cfg : Config) (s : String) : Bool :=
  cfg.whitelists.any fun t => t s

/-! ## Syntax tree

ESTree-like nodes, restricted to the kinds the rule's visitor matches on
plus the glue kinds needed to build the test programs.  `Literal` nodes
carry their runtime `value` (string or not) and their raw source text;
member accesses are modelled non-computed, with the property as its
identifier name, which is how every handler of the rule reads them
(`callee.property.name`). -/

/-- A `Literal`'s runtime value, as far as `typeof value === 'string'`
can observe it. -/
inductive LitValue where
  | str (s : String)
  | other (src : String)

mutual
inductive Node : Type where
  | program (body : NodeList)
  | exprStmt (e : Node)
  | lit (value : LitValue) (raw : String)
  | tmpl (quasis : List String) (exprs : NodeList)
  | jsxText (value : String)
  | ident (name : String)
  | thisExpr
  | member (obj : Node) (prop : String)
  | call (callee : Node) (args : NodeList)
  | importKw
  | importDecl (source : Node)
  | exportAll (source : Node)
  | exportNamed (kids : NodeList)
  | varDecl (decls : NodeList)
  | varDeclarator (id : String) (init : Node)
  | property (key : Node) (value : Node) (computed : Bool)
  | objectExpr (props : NodeList)
  | binary (op : String) (l : Node) (r : Node)
  | taggedTmpl (tag : Node) (quasi : Node)
  | switchStmt (disc : Node) (cases : NodeList)
  | switchCase (tests : NodeList) (body : NodeList)
  | jsxElement (opening : Node) (kids : NodeList)
  | jsxOpening (name : String) (attrs : NodeList)
  | jsxAttr (name : String) (value : NodeList)
  | jsxSpreadAttr (arg : Node)
  | jsxExprContainer (e : Node)
  | tsModuleDecl (body : NodeList)
  | tsEnumDecl (members : NodeList)
  | tsLiteralType (l : Node)
  | tsAsExpr (e : Node)
  | arrow (body : Node)
inductive NodeList : Type where
  | nil
  | cons (head : Node) (tail : NodeList)
end

/-- ESTree `node.type` tag strings, as matched by the rule's selector
strings. -/
def typeName : Node → String
  | .program _ => "Program"
  | .exprStmt _ => "ExpressionStatement"
  | .lit _ _ => "Literal"
  | .tmpl _ _ => "TemplateLiteral"
  | .jsxText _ => "JSXText"
  | .ident _ => "Identifier"
  | .thisExpr => "ThisExpression"
  | .member _ _ => "MemberExpression"
  | .call _ _ => "CallExpression"
  | .importKw => "Import"
  | .importDecl _ => "ImportDeclaration"
  | .exportAll _ => "ExportAllDeclaration"
  | .exportNamed _ => "ExportNamedDeclaration"
  | .varDecl _ => "VariableDeclaration"
  | .varDeclarator _ _ => "VariableDeclarator"
  | .property _ _ _ => "Property"
  | .objectExpr _ => "ObjectExpression"
  | .binary _ _ _ => "BinaryExpression"
  | .taggedTmpl _ _ => "TaggedTemplateExpression"
  | .switchStmt _ _ => "SwitchStatement"
  | .switchCase _ _ => "SwitchCase"
  | .jsxElement _ _ => "JSXElement"
  | .jsxOpening _ _ => "JSXOpeningElement"
  | .jsxAttr _ _ => "JSXAttribute"
  | .jsxSpreadAttr _ => "JSXSpreadAttribute"
  | .jsxExprContainer _ => "JSXExpressionContainer"
  | .tsModuleDecl _ => "TSModuleDeclaration"
  | .tsEnumDecl _ => "TSEnumDeclaration"
  | .tsLiteralType _ => "TSLiteralType"
  | .tsAsExpr _ => "TSAsExpression"
  | .arrow _ => "ArrowFunctionExpression"

/-- JavaScript `node.name`: the `name` field of an `Identifier`,
`undefined` on every other node kind. -/
def nameOf : Node → Option String
  | .ident n => some n
  | _ => none

/-- JavaScript `node.value` restricted to string values: `some s` when
`typeof node.value === 'string'`. `TemplateLiteral` nodes have no
`value`. -/
def strValueOf : Node → Option String
  | .lit (.str s) _ => some s
  | .jsxText v => some v
  | _ => none

/-- Helper `isString(node)`:
`typeof node.value === 'string' || node.type === 'TemplateLiteral'`. -/
def isString (n : Node) : Bool :=
  (strValueOf n).isSome || typeName n == "TemplateLiteral"

/-- The nodes matched by `:matches(Literal, TemplateLiteral)`. -/
def isLitOrTmpl (n : Node) : Bool :=
  typeName n == "Literal" || typeName n == "TemplateLiteral"

/-- The nodes matched by `:matches(Literal, TemplateLiteral, JSXText)`. -/
def isLitTmplText (n : Node) : Bool :=
  isLitOrTmpl n || typeName n == "JSXText"

mutual
/-- `context.getSourceCode().getText(node)`: an unparser producing the
source text of a node.  Faithful for the shapes the rule inspects
(member-access chains for the dotted-callee suffix match, template
literals for the `${}` regex test); approximate pretty-printing for
statement-level nodes, whose text only ends up in message data. -/
def getText : Node → String
  | .program body => getTextList "; " body
  | .exprStmt e => getText e ++ ";"
  | .lit _ raw => raw
  | .tmpl quasis exprs => "`" ++ tmplZip quasis exprs ++ "`"
  | .jsxText v => v
  | .ident n => n
  | .thisExpr => "this"
  | .member obj prop => getText obj ++ "." ++ prop
  | .call callee args => getText callee ++ "(" ++ getTextList ", " args ++ ")"
  | .importKw => "import"
  | .importDecl source => "import " ++ getText source
  | .exportAll source => "export * from " ++ getText source
  | .exportNamed kids => "export " ++ getTextList ", " kids
  | .varDecl decls => "var " ++ getTextList ", " decls
  | .varDeclarator id init => id ++ " = " ++ getText init
  | .property key value computed =>
      (if computed then "[" ++ getText key ++ "]" else getText key)
        ++ ": " ++ getText value
  | .objectExpr props => "\x7b" ++ getTextList ", " props ++ "\x7d"
  | .binary op l r => getText l ++ " " ++ op ++ " " ++ getText r
  | .taggedTmpl tag quasi => getText tag ++ getText quasi
  | .switchStmt disc cases =>
      "switch (" ++ getText disc ++ ") \x7b" ++ getTextList " " cases ++ "\x7d"
  | .switchCase tests body =>
      "case " ++ getTextList ", " tests ++ ": " ++ getTextList "; " body
  | .jsxElement opening kids =>
      getText opening ++ getTextList "" kids ++ "</>"
  | .jsxOpening name attrs =>
      "<" ++ name ++
        (match attrs with
          | .nil => ""
          | _ => " " ++ getTextList " " attrs) ++ ">"
  | .jsxAttr name value =>
      name ++ (match value with
        | .nil => ""
        | _ => "=" ++ getTextList "" value)
  | .jsxSpreadAttr arg => "\x7b..." ++ getText arg ++ "\x7d"
  | .jsxExprContainer e => "\x7b" ++ getText e ++ "\x7d"
  | .tsModuleDecl body => "declare module " ++ getTextList " " body
  | .tsEnumDecl members => "enum \x7b" ++ getTextList ", " members ++ "\x7d"
  | .tsLiteralType l => getText l
  | .tsAsExpr e => getText e ++ " as T"
  | .arrow body => "() => " ++ getText body

/-- Source text of a node list joined with a separator. -/
def getTextList (sep : String) : NodeList → String
  | .nil => ""
  | .cons h .nil => getText h
  | .cons h t => getText h ++ sep ++ getTextList sep t

/-- Source text of a template literal body: quasis interleaved with
`${expression}` holes. -/
def tmplZip (quasis : List String) : NodeList → String
  | .nil => String.join quasis
  | .cons e t =>
      quasis.headD "" ++ "$\x7b" ++ getText e ++ "\x7d" ++
        tmplZip quasis.tail t
end

/-! ## Callee classification

`isTranlationFunctionCall` (the source's own spelling) and
`isTechnicalFunctionCall`, both destructuring `{ callee }` from a
`CallExpression` node. -/

/-- The member-access branch shared by both classifiers: property name
against `simple`, then `object.name + '.' + property.name` against
`complex`, then the dotted-suffix fallback
`('.' + getText(callee)).endsWith('.' + entry)`. -/
def memberCalleeCheck (wl : CalleeWhitelists) (obj : Node) (prop : String) :
    Bool :=
  if wl.simple.contains prop then true
  else if wl.complex.contains (jsString (nameOf obj) ++ "." ++ prop) then true
  else
    wl.complex.any fun c =>
      jsEndsWith ("." ++ getText (.member obj prop)) ("." ++ c)

/-- `isTranlationFunctionCall({ callee })`: member callees via
`memberCalleeCheck` against the translator whitelists; otherwise the
callee's identifier name against `translatorCalleeWhitelists.simple`. -/
def isTranlationFunctionCall (cfg : Config) : Node → Bool
  | .call callee _ =>
      match callee with
      | .member obj prop =>
          memberCalleeCheck cfg.translatorCalleeWhitelists obj prop
      | _ =>
          match nameOf callee with
          | some nm => cfg.translatorCalleeWhitelists.simple.contains nm
          | none => false
  | _ => false

/-- `isTechnicalFunctionCall({ callee })`: dynamic `import(...)` is
always technical; member callees via `memberCalleeCheck` against the
callee whitelists; `require` is always technical; otherwise the
identifier name against `calleeWhitelists.simple`. -/
def isTechnicalFunctionCall (cfg : Config) : Node → Bool
  | .call callee _ =>
      match callee with
      | .importKw => true
      | .member obj prop => memberCalleeCheck cfg.calleeWhitelists obj prop
      | _ =>
          match nameOf callee with
          | some nm => nm == "require" || cfg.calleeWhitelists.simple.contains nm
          | none => false
  | _ => false

/-! ## Run state, findings and runtime errors -/

/-- A node's identity: its access path (list of child indices) from the
root.  The rule keys its `WeakSet`s and its `complaints` `Map` on node
object identity; two structurally equal literals at different places
are distinct entries. -/
abbrev NodeId := List Nat

/-- One reported problem: `context.report({node, message, data})`. -/
structure Finding where
  nodeId : NodeId
  message : String
  data : List (String × String)
  deriving DecidableEq, Repr

/-- The rule's per-run mutable state: the `visited`, `translationNodes`
and `technicalNodes` `WeakSet`s, the `complaints` `Map`, and the ordered
problems handed to `context.report`. -/
structure LintState where
  visited : List NodeId := []
  translationNodes : List NodeId := []
  technicalNodes : List NodeId := []
  complaints : List (NodeId × Finding) := []
  findings : List Finding := []
  deriving DecidableEq, Repr

/-- `complaints.set(node, c)`: later entries shadow earlier ones. -/
def setComplaint (st : LintState) (p : NodeId) (f : Finding) : LintState :=
  { st with complaints := (p, f) :: st.complaints }

/-- `complaints.get(node)` / `complaints.has(node)`. -/
def getComplaint (st : LintState) (p : NodeId) : Option Finding :=
  (st.complaints.find? fun e => e.1 == p).map (·.2)

/-- The runtime `TypeError`s the rule can actually throw, modelled as
abortive errors of the run. -/
inductive RErr where
  /-- `scriptVisitor.JSXText` is `undefined` in the current rule, so the
  handler `JSXElement > :matches(Literal, TemplateLiteral)` calls an
  undefined value. -/
  | undefinedJSXTextHandler
  /-- The exit handler reads `attribute.name.name` after
  `getNearestAncestor(node, 'JSXAttribute')` returned null. -/
  | nullAttributeName
  deriving DecidableEq, Repr

/-- An ancestor entry: the ancestor's path paired with the node.  The
ancestor list of a visit is ordered nearest-first (the parent is the
head), and ends at the tree root. -/
abbrev Anc := List (NodeId × Node)

/-- `getNearestAncestor(node, type)`: walk the parent chain, returning
the first strict ancestor with the given `type` tag, or none. -/
def getNearestAncestor (anc : Anc) (ty : String) : Option (NodeId × Node) :=
  anc.find? fun a => typeName a.2 == ty

/-- `checkTranslationParents(node)`:
`context.getAncestors(node).some(x => translationNodes.has(x))`. -/
def checkTranslationParents (st : LintState) (anc : Anc) : Bool :=
  anc.any fun a => st.translationNodes.contains a.1

/-- `checkTechnicalParents(node)`:
`context.getAncestors(node).some(x => technicalNodes.has(x))`. -/
def checkTechnicalParents (st : LintState) (anc : Anc) : Bool :=
  anc.any fun a => st.technicalNodes.contains a.1

/-! ## Message templates (verbatim from the rule; braces escaped) -/

/-- Message of the dedicated `${}`-placeholder complaint. -/
def placeholderMessage : String :=
  "Forbidden template literal placeholder $\x7b\x7d in translation string, use \x7b\x7b\x7d\x7d instead: \x7b\x7b code \x7d\x7d"

/-- Message of the deferred object-property complaint. -/
def propertyMessage : String :=
  "Forbidden literal assigned to property: \x7b\x7b code \x7d\x7d"

/-- Message of the JSX-attribute complaint (with its trailing space). -/
def attributeMessage : String :=
  "Forbidden literal string \x7b\x7bstring\x7d\x7d as value for attribute \x27\x7b\x7battribute\x7d\x7d\x27 for tag \x27\x7b\x7btag\x7d\x7d\x27 in \x7b\x7b code \x7d\x7d "

/-- Message of the generic complaint. -/
def genericMessage : String :=
  "Forbidden literal string \x7b\x7bstring\x7d\x7d in \x7b\x7b code \x7d\x7d.\nTypes: \x7b\x7bt\x7d\x7d \x7b\x7b ptype \x7d\x7d"

/-- `JSON.stringify` of an array of strings (for the `ptype` datum). -/
def jsonArr (l : List String) : String :=
  "[" ++ String.intercalate "," (l.map fun s => "\"" ++ s ++ "\"") ++ "]"

/-! ## Entry handlers (pre-order)

One Lean function per visitor handler of `scriptVisitor`, fired when the
traversal enters a node.  Each receives the node's path `p`, its strict
ancestors `anc` (nearest first) and the run state. -/

/-- `visited.add(node)`. -/
def addVisited (st : LintState) (p : NodeId) : LintState :=
  { st with visited := p :: st.visited }

/-- Does some strict ancestor have the given `type` tag?  (Descendant
selector `'Ty :matches(...)'`.) -/
def hasAncType (anc : Anc) (ty : String) : Bool :=
  anc.any fun a => typeName a.2 == ty

/-- Is the parent of the given `type` tag?  (Child selector `'Ty > ...'`.) -/
def parentType (anc : Anc) (ty : String) : Bool :=
  match anc with
  | a :: _ => typeName a.2 == ty
  | [] => false

/-- Handler `'ImportDeclaration :matches(Literal, TemplateLiteral)'`. -/
def entryImportDeclLit (p : NodeId) (anc : Anc) (st : LintState) (n : Node) :
    LintState :=
  if isLitOrTmpl n && hasAncType anc "ImportDeclaration" then addVisited st p
  else st

/-- Handler `'ExportAllDeclaration :matches(Literal, TemplateLiteral)'`. -/
def entryExportAllLit (p : NodeId) (anc : Anc) (st : LintState) (n : Node) :
    LintState :=
  if isLitOrTmpl n && hasAncType anc "ExportAllDeclaration" then addVisited st p
  else st

/-- Handler `'ExportNamedDeclaration > :matches(Literal, TemplateLiteral)'`. -/
def entryExportNamedLit (p : NodeId) (anc : Anc) (st : LintState) (n : Node) :
    LintState :=
  if isLitOrTmpl n && parentType anc "ExportNamedDeclaration" then
    addVisited st p
  else st

/-- Handler `'JSXElement > JSXOpeningElement'`: tags the parent element
as a translation node when the opening tag's name is `Trans` or
`Translation`. -/
def entryJSXOpeningElement (anc : Anc) (st : LintState) (n : Node) :
    LintState :=
  match n, anc with
  | .jsxOpening nm _, (pp, par) :: _ =>
      if typeName par == "JSXElement" then
        if nm == "Trans" || nm == "Translation" then
          { st with translationNodes := pp :: st.translationNodes }
        else st
      else st
  | _, _ => st

/-- Handler `'JSXElement > :matches(Literal, TemplateLiteral)'`: calls
`scriptVisitor.JSXText(node)`, but no `JSXText` entry exists on
`scriptVisitor` in the current rule, so the call throws. -/
def entryJSXElementChildLit (anc : Anc) (st : LintState) (n : Node) :
    Except RErr LintState :=
  if isLitOrTmpl n && parentType anc "JSXElement" then
    .error .undefinedJSXTextHandler
  else .ok st

/-- `element.name.name` of a `JSXOpeningElement`. -/
def jsxElemName : Node → String
  | .jsxOpening nm _ => nm
  | _ => "undefined"

/-- `node.name.name` of a `JSXAttribute`. -/
def jsxAttrName : Node → String
  | .jsxAttr nm _ => nm
  | _ => "undefined"

/-- Handler `'JSXAttribute'`: tags the attribute as a technical node
when some `ignoreTags` entry covers the (element tag, attribute name)
pair, with `'*'` as a tag wildcard. -/
def entryJSXAttribute (cfg : Config) (p : NodeId) (anc : Anc)
    (st : LintState) (n : Node) : LintState :=
  match n with
  | .jsxAttr nm _ =>
      match getNearestAncestor anc "JSXOpeningElement" with
      | some (_, el) =>
          if cfg.tagAttrWhiteList.any fun e =>
              (e.tags.contains "*" || e.tags.contains (jsxElemName el)) &&
                e.attributes.contains nm then
            { st with technicalNodes := p :: st.technicalNodes }
          else st
      | none => st
  | _ => st

/-- Handler `'TSModuleDeclaration :matches(Literal, TemplateLiteral)'`. -/
def entryTSModuleLit (p : NodeId) (anc : Anc) (st : LintState) (n : Node) :
    LintState :=
  if isLitOrTmpl n && hasAncType anc "TSModuleDeclaration" then addVisited st p
  else st

/-- Handler `'TSEnumDeclaration :matches(Literal, TemplateLiteral)'`. -/
def entryTSEnumLit (p : NodeId) (anc : Anc) (st : LintState) (n : Node) :
    LintState :=
  if isLitOrTmpl n && hasAncType anc "TSEnumDeclaration" then addVisited st p
  else st

/-- Handler `'TSLiteralType :matches(Literal, TemplateLiteral)'`. -/
def entryTSLiteralTypeLit (p : NodeId) (anc : Anc) (st : LintState)
    (n : Node) : LintState :=
  if isLitOrTmpl n && hasAncType anc "TSLiteralType" then addVisited st p
  else st

/-- Handler `'VariableDeclarator > :matches(Literal, TemplateLiteral)'`:
exempts the initializer when the bound name is `isUpperCase`. -/
def entryVarDeclaratorLit (p : NodeId) (anc : Anc) (st : LintState)
    (n : Node) : LintState :=
  match n, anc with
  | nn, (_, .varDeclarator id _) :: _ =>
      if isLitOrTmpl nn && isUpperCase id then addVisited st p else st
  | _, _ => st

/-- Handler `'TSAsExpression > :matches(Literal, TemplateLiteral)'`. -/
def entryTSAsLit (p : NodeId) (anc : Anc) (st : LintState) (n : Node) :
    LintState :=
  if isLitOrTmpl n && parentType anc "TSAsExpression" then addVisited st p
  else st

/-- `parent.key.value` coerced as `isUpperCase`'s argument sees it. -/
def keyStrValue : Node → Option String
  | .lit (.str s) _ => some s
  | .lit (.other src) _ => some src
  | _ => none

/-- JavaScript `a || b` over possibly-undefined strings (an empty string
is falsy), coerced to a string for `isUpperCase`. -/
def jsOr (a b : Option String) : String :=
  match a with
  | some s => if s == "" then jsString b else s
  | none => jsString b

/-- Handler `'Property :matches(Literal, TemplateLiteral)'`: key
literals are exempt; empty/pattern-matched values return early; values
under an allow-listed or upper-case key are exempt; otherwise a deferred
property complaint is recorded. -/
def entryPropertyLit (cfg : Config) (p : NodeId) (anc : Anc)
    (st : LintState) (n : Node) : LintState :=
  if !(isLitOrTmpl n && hasAncType anc "Property") then st
  else if !isString n then st
  else
    match getNearestAncestor anc "Property" with
    | some (pp, .property key value computed) =>
        if p == pp ++ [0] then addVisited st p
        else
          let earlyRet :=
            match strValueOf n with
            | some v =>
                let trimmed := jsTrim v
                trimmed == "" || matchW cfg trimmed
            | none => false
          if earlyRet then st
          else if (match nameOf key with
              | some nm => cfg.propWhitelist.contains nm
              | none => false) then
            addVisited st p
          else if isUpperCase (jsOr (nameOf key) (keyStrValue key)) then
            addVisited st p
          else
            setComplaint st p
              { nodeId := p, message := propertyMessage,
                data := [("code", getText (.property key value computed))] }
    | _ => st

/-- Handler `'BinaryExpression > :matches(Literal, TemplateLiteral)'`:
any operator other than `'+'` exempts the operand. -/
def entryBinaryLit (p : NodeId) (anc : Anc) (st : LintState) (n : Node) :
    LintState :=
  match n, anc with
  | nn, (_, .binary op _ _) :: _ =>
      if isLitOrTmpl nn && op != "+" then addVisited st p else st
  | _, _ => st

/-- Handler `'TaggedTemplateExpression'`: a bare-identifier tag or a
call tag whose callee name is `t` or `T` marks the tagged template a
translation node. -/
def entryTaggedTemplateExpr (p : NodeId) (st : LintState) (n : Node) :
    LintState :=
  match n with
  | .taggedTmpl tag _ =>
      let name : Option String :=
        match tag with
        | .call c _ => nameOf c
        | .ident nm => some nm
        | _ => none
      match name with
      | none => st
      | some nm =>
          if ["t", "T"].contains nm then
            { st with translationNodes := p :: st.translationNodes }
          else st
  | _ => st

/-- Handler `'CallExpression'`: runs both callee classifiers and tags
the call accordingly. -/
def entryCallExpr (cfg : Config) (p : NodeId) (st : LintState) (n : Node) :
    LintState :=
  match n with
  | .call _ _ =>
      let st :=
        if isTranlationFunctionCall cfg n then
          { st with translationNodes := p :: st.translationNodes }
        else st
      if isTechnicalFunctionCall cfg n then
        { st with technicalNodes := p :: st.technicalNodes }
      else st
  | _ => st

/-- Handler `'SwitchCase > :matches(Literal, TemplateLiteral)'`. -/
def entrySwitchCaseLit (p : NodeId) (anc : Anc) (st : LintState) (n : Node) :
    LintState :=
  if isLitOrTmpl n && parentType anc "SwitchCase" then addVisited st p
  else st

/-- All entry handlers of `scriptVisitor` applied at node entry.  The
handlers write disjoint, additive state (none of them reads `visited`,
`complaints` or the tag sets), so their relative firing order is not
observable; they are composed in source order. -/
def entryStep (cfg : Config) (p : NodeId) (anc : Anc) (st : LintState)
    (n : Node) : Except RErr LintState := do
  let st := entryImportDeclLit p anc st n
  let st := entryExportAllLit p anc st n
  let st := entryExportNamedLit p anc st n
  let st := entryJSXOpeningElement anc st n
  let st ← entryJSXElementChildLit anc st n
  let st := entryJSXAttribute cfg p anc st n
  let st := entryTSModuleLit p anc st n
  let st := entryTSEnumLit p anc st n
  let st := entryTSLiteralTypeLit p anc st n
  let st := entryVarDeclaratorLit p anc st n
  let st := entryTSAsLit p anc st n
  let st := entryPropertyLit cfg p anc st n
  let st := entryBinaryLit p anc st n
  let st := entryTaggedTemplateExpr p st n
  let st := entryCallExpr cfg p st n
  let st := entrySwitchCaseLit p anc st n
  return st

/-- The pure part of `entryStep`: the sixteen handlers composed in
source order, skipping the crashing
`JSXElement > :matches(Literal, TemplateLiteral)` handler (which leaves
the state unchanged whenever it does not throw).  `entryStep` equals
`.ok` of this composition on every node whose parent is not a
`JSXElement` (lemma `entryStep_no_jsx_parent` below). -/
def entryChainPure (cfg : Config) (p : NodeId) (anc : Anc) (st : LintState)
    (n : Node) : LintState :=
  entrySwitchCaseLit p anc
    (entryCallExpr cfg p
      (entryTaggedTemplateExpr p
        (entryBinaryLit p anc
          (entryPropertyLit cfg p anc
            (entryTSAsLit p anc
              (entryVarDeclaratorLit p anc
                (entryTSLiteralTypeLit p anc
                  (entryTSEnumLit p anc
                    (entryTSModuleLit p anc
                      (entryJSXAttribute cfg p anc
                        (entryJSXOpeningElement anc
                          (entryExportNamedLit p anc
                            (entryExportAllLit p anc
                              (entryImportDeclLit p anc st n) n) n) n)
                        n) n) n) n) n) n) n) n) n) n) n

/-! ## Exit handler (post-order) -/

/-- The final `context.report(complaints.has(node) ? complaints.get(node)
: generic)` of the exit handler. -/
def report (p : NodeId) (anc : Anc) (st : LintState) (n : Node) :
    LintState :=
  let f :=
    match getComplaint st p with
    | some c => c
    | none =>
        { nodeId := p, message := genericMessage,
          data := [("string", getText n),
                   ("code", match anc with | a :: _ => getText a.2 | [] => ""),
                   ("t", typeName n),
                   ("ptype", jsonArr (anc.map fun a => typeName a.2))] }
  { st with findings := st.findings ++ [f] }

/-- Handler `':matches(Literal, TemplateLiteral, JSXText):exit'`: the
final verdict for a string-bearing node.  Mirrors the source control
flow exactly, including the placeholder complaint falling through to the
technical-parent check, and the unguarded `attribute.name.name` read
(modelled as the `nullAttributeName` error). -/
def exitStep (cfg : Config) (p : NodeId) (anc : Anc) (st : LintState)
    (n : Node) : Except RErr LintState :=
  if !isLitTmplText n then .ok st
  else if !isString n then .ok st
  else if st.visited.contains p then .ok st
  else
    let isHoleTmpl := typeName n == "TemplateLiteral" && hasHoleStr (getText n)
    if checkTranslationParents st anc && !isHoleTmpl then .ok st
    else
      let st :=
        if checkTranslationParents st anc then
          setComplaint st p
            { nodeId := p, message := placeholderMessage,
              data := [("code", getText n)] }
        else st
      if checkTechnicalParents st anc then .ok st
      else
        let strExempt :=
          match strValueOf n with
          | some v =>
              let trimmed := jsTrim v
              trimmed == "" || isUpperCase trimmed || matchW cfg trimmed
          | none => false
        if strExempt then .ok st
        else
          match getNearestAncestor anc "JSXOpeningElement" with
          | some (_, el) =>
              (match getNearestAncestor anc "JSXAttribute" with
               | none => .error .nullAttributeName
               | some (_, attr) =>
                  let st := setComplaint st p
                    { nodeId := p, message := attributeMessage,
                      data := [("string", getText n),
                               ("attribute", jsxAttrName attr),
                               ("tag", jsxElemName el),
                               ("code", getText el)] }
                  .ok (report p anc st n))
          | none => .ok (report p anc st n)

/-! ## Traversal

ESLint's single traversal: entry handlers fire in pre-order, the
`:exit` handler in post-order, so every ancestor's entry handlers (and
hence all container tagging on the ancestor chain) have run before a
descendant's exit handler.  A child's path extends its parent's path by
the child's index; where a node has several child slots the indices are
chosen disjoint, so paths identify nodes uniquely. -/

/-- Length of a `NodeList`. -/
def lengthNL : NodeList → Nat
  | .nil => 0
  | .cons _ t => 1 + lengthNL t

mutual
/-- Visit one node: entry handlers, then the children, then the exit
handler. -/
def visitNode (cfg : Config) (p : NodeId) (anc : Anc) (st : LintState)
    (n : Node) : Except RErr LintState := do
  let st ← entryStep cfg p anc st n
  let anc2 : Anc := (p, n) :: anc
  let st ←
    match n with
    | .program body => visitList cfg p anc2 st 0 body
    | .exprStmt e => visitNode cfg (p ++ [0]) anc2 st e
    | .lit _ _ => .ok st
    | .tmpl _ exprs => visitList cfg p anc2 st 0 exprs
    | .jsxText _ => .ok st
    | .ident _ => .ok st
    | .thisExpr => .ok st
    | .member obj _ => visitNode cfg (p ++ [0]) anc2 st obj
    | .call callee args => do
        let st ← visitNode cfg (p ++ [0]) anc2 st callee
        visitList cfg p anc2 st 1 args
    | .importKw => .ok st
    | .importDecl s => visitNode cfg (p ++ [0]) anc2 st s
    | .exportAll s => visitNode cfg (p ++ [0]) anc2 st s
    | .exportNamed kids => visitList cfg p anc2 st 0 kids
    | .varDecl decls => visitList cfg p anc2 st 0 decls
    | .varDeclarator _ init => visitNode cfg (p ++ [0]) anc2 st init
    | .property key value _ => do
        let st ← visitNode cfg (p ++ [0]) anc2 st key
        visitNode cfg (p ++ [1]) anc2 st value
    | .objectExpr props => visitList cfg p anc2 st 0 props
    | .binary _ l r => do
        let st ← visitNode cfg (p ++ [0]) anc2 st l
        visitNode cfg (p ++ [1]) anc2 st r
    | .taggedTmpl tag quasi => do
        let st ← visitNode cfg (p ++ [0]) anc2 st tag
        visitNode cfg (p ++ [1]) anc2 st quasi
    | .switchStmt disc cases => do
        let st ← visitNode cfg (p ++ [0]) anc2 st disc
        visitList cfg p anc2 st 1 cases
    | .switchCase tests body => do
        let st ← visitList cfg p anc2 st 0 tests
        visitList cfg p anc2 st (1 + lengthNL tests) body
    | .jsxElement opening kids => do
        let st ← visitNode cfg (p ++ [0]) anc2 st opening
        visitList cfg p anc2 st 1 kids
    | .jsxOpening _ attrs => visitList cfg p anc2 st 0 attrs
    | .jsxAttr _ value => visitList cfg p anc2 st 0 value
    | .jsxSpreadAttr arg => visitNode cfg (p ++ [0]) anc2 st arg
    | .jsxExprContainer e => visitNode cfg (p ++ [0]) anc2 st e
    | .tsModuleDecl body => visitList cfg p anc2 st 0 body
    | .tsEnumDecl members => visitList cfg p anc2 st 0 members
    | .tsLiteralType l => visitNode cfg (p ++ [0]) anc2 st l
    | .tsAsExpr e => visitNode cfg (p ++ [0]) anc2 st e
    | .arrow body => visitNode cfg (p ++ [0]) anc2 st body
  exitStep cfg p anc st n

/-- Visit the nodes of a list, children of the node at `pp`, starting at
child index `i`. -/
def visitList (cfg : Config) (pp : NodeId) (anc : Anc) (st : LintState)
    (i : Nat) : NodeList → Except RErr LintState
  | .nil => .ok st
  | .cons h t => do
      let st ← visitNode cfg (pp ++ [i]) anc st h
      visitList cfg pp anc st (i + 1) t
end

/-- Run the rule on one syntax tree with the given raw options:
compile the configuration, then traverse from the root with empty
per-run state. -/
def runLint (o : Options) (root : Node) : Except RErr LintState :=
  visitNode (compileConfig o) [] [] {} root

/-- The reported findings of a successful run. -/
def findingsOf : Except RErr LintState → List Finding
  | .ok st => st.findings
  | .error _ => []

instance {ε α : Type} [DecidableEq ε] [DecidableEq α] :
    DecidableEq (Except ε α) := fun x y =>
  match x, y with
  | .ok a, .ok b =>
      if h : a = b then isTrue (by rw [h]) else isFalse (by simp [h])
  | .error e, .error f =>
      if h : e = f then isTrue (by rw [h]) else isFalse (by simp [h])
  | .ok _, .error _ => isFalse (by simp)
  | .error _, .ok _ => isFalse (by simp)

/-! ## Concrete input programs for the claims -/

/-- A string `Literal` with its raw quoted source text. -/
def strLit (s : String) : Node := .lit (.str s) ("\"" ++ s ++ "\"")

/-- A one-statement program `e;`. -/
def stmtOf (e : Node) : Node := .program (.cons (.exprStmt e) .nil)

/-- A one-element node list. -/
def nl1 (n : Node) : NodeList := .cons n .nil

/-- A two-element node list. -/
def nl2 (a b : Node) : NodeList := .cons a (.cons b .nil)

/-- A program `var <id> = <init>;`. -/
def varProg (id : String) (init : Node) : Node :=
  .program (nl1 (.varDecl (nl1 (.varDeclarator id init))))

/-- The template literal `` `hello ${name}` ``. -/
def tmplHello : Node := .tmpl ["hello ", ""] (nl1 (.ident "name"))

/-- `addEventListener("x", t(`hello ${name}`));` — a translation call
carrying an interpolated template, the whole thing nested inside a
technical (`addEventListener`) call. -/
def treeC1 : Node :=
  stmtOf (.call (.ident "addEventListener")
    (nl2 (strLit "x") (.call (.ident "t") (nl1 tmplHello))))

/-- `<div className="primary"></div>` under the default configuration. -/
def treeC3 : Node :=
  stmtOf (.jsxElement
    (.jsxOpening "div" (nl1 (.jsxAttr "className" (nl1 (strLit "primary")))))
    .nil)

/-- `const a = "A1_B-2";` — an uppercase-with-digits value. -/
def treeC4 : Node := varProg "a" (strLit "A1_B-2")

/-- `const a = "123!?";` — a value without alphabetic characters. -/
def treeC5 : Node := varProg "a" (strLit "123!?")

/-- `<div style={{foo: "bar"}} />` — a property value that receives a
deferred property complaint inside a JSX attribute. -/
def treeC6 : Node :=
  stmtOf (.jsxElement
    (.jsxOpening "div" (nl1 (.jsxAttr "style"
      (nl1 (.jsxExprContainer
        (.objectExpr (nl1 (.property (.ident "foo") (strLit "bar") false))))))))
    .nil)

/-- `<div {...{a: "foo"}} />` — a string literal under a JSX spread
attribute: a `JSXOpeningElement` ancestor exists but no `JSXAttribute`
ancestor. -/
def treeC8 : Node :=
  stmtOf (.jsxElement
    (.jsxOpening "div" (nl1 (.jsxSpreadAttr
      (.objectExpr (nl1 (.property (.ident "a") (strLit "foo") false))))))
    .nil)

/-- `a + "b"` — a string literal under the `+` operator. -/
def treeC10plus : Node := stmtOf (.binary "+" (.ident "a") (strLit "b"))

/-- `name === 'Android'` — a string literal under a non-`+` operator. -/
def treeC10eq : Node := stmtOf (.binary "===" (.ident "name") (strLit "Android"))

/-- The compiled configuration for `ignoreCallee: ["socket.on"]`. -/
def cfgSocketOn : Config := compileConfig { ignoreCallee := ["socket.on"] }

/-- The default (empty-options) compiled configuration. -/
def cfgDefault : Config := compileConfig {}

/-- The placeholder-syntax finding the exit handler records for a
translation-contained interpolated template at path `p`. -/
def placeholderFinding (p : NodeId) (n : Node) : Finding :=
  { nodeId := p, message := placeholderMessage, data := [("code", getText n)] }

/-- A sample deferred property complaint, as the `Property` handler
records it for `{foo: "bar"}`. -/
def samplePropComplaint : Finding :=
  { nodeId := [0, 1], message := propertyMessage,
    data := [("code", "foo: \"bar\"")] }

/-! # Claims -/

/-- **C9.** For every string literal or text node whose string value is
empty after trimming whitespace, the verdict is Exempt and no finding is
emitted, in every syntactic context and under every configuration: the
exit handler returns with the state unchanged for both a `Literal` with
string value `v` and a `JSXText` node with value `v` whenever
`v.trim()` is empty, for every configuration, path, ancestor chain and
run state. -/
theorem claim_c9 (cfg : Config) (p : NodeId) (anc : Anc) (st : LintState)
    (v raw : String) (h : jsTrim v = "") :
    exitStep cfg p anc st (.lit (.str v) raw) = .ok st ∧
    exitStep cfg p anc st (.jsxText v) = .ok st := by
  constructor <;>
  · cases hV : st.visited.contains p <;>
    cases hT : checkTranslationParents st anc <;>
    cases hTech : checkTechnicalParents st anc <;>
    simp only [exitStep, hV, hT, hTech, h, typeName, strValueOf, isLitTmplText,
      isLitOrTmpl, isString, Option.isSome, Bool.false_eq_true, if_false,
      if_true, Bool.false_and, Bool.true_and, Bool.and_true, Bool.and_false,
      Bool.not_false, Bool.not_true, Bool.or_true, Bool.true_or, Bool.false_or,
      Bool.or_false, beq_self_eq_true, Bool.true_eq_false, String.reduceBEq,
      Bool.or_self, Bool.not_eq_true]

/-- Witness for C9 at the whitespace-only literal `"   "` in an
arbitrary small context. -/
theorem claim_c9_witness :
    jsTrim "   " = "" ∧
    exitStep cfgDefault [0] [] {} (.lit (.str "   ") "\"   \"") = .ok {} :=
  ⟨by decide, (claim_c9 cfgDefault [0] [] {} "   " "\"   \"" (by decide)).1⟩

/-- **C2.** A call recognized by `isTechnicalFunctionCall` is tagged as
a technical container by the pre-order `CallExpression` handler, and at
exit time any node some strict ancestor of which carries the technical
tag — and none of whose strict ancestors carries the translation tag —
is exempt: the exit handler returns with the state unchanged and no
finding. -/
theorem claim_c2 :
    (∀ (cfg : Config) (p : NodeId) (st : LintState) (callee : Node)
      (args : NodeList),
      isTechnicalFunctionCall cfg (.call callee args) = true →
      (entryCallExpr cfg p st (.call callee args)).technicalNodes.contains p
        = true) ∧
    (∀ (cfg : Config) (p : NodeId) (anc : Anc) (st : LintState) (n : Node),
      checkTechnicalParents st anc = true →
      checkTranslationParents st anc = false →
      exitStep cfg p anc st n = .ok st) := by
  constructor
  · intro cfg p st callee args h
    unfold entryCallExpr
    simp [h]
  · intro cfg p anc st n h1 h2
    cases hV : st.visited.contains p <;>
    simp only [exitStep, hV, h1, h2, Bool.false_eq_true, if_false, if_true,
      Bool.false_and, Bool.true_and, Bool.and_true, Bool.and_false,
      Bool.not_false, Bool.not_true, Bool.or_true, Bool.true_or, Bool.false_or,
      Bool.or_false, Bool.true_eq_false, Bool.not_eq_true, ite_self]

/-- Witness for C2: `addEventListener` is recognized and tagged, and a
literal below a technically-tagged ancestor is exempt at exit. -/
theorem claim_c2_witness :
    (entryCallExpr cfgDefault [0, 0] {}
      (.call (.ident "addEventListener") (nl1 (strLit "x")))).technicalNodes.contains [0, 0] = true ∧
    exitStep cfgDefault [0, 0, 1]
      [([0, 0], .call (.ident "addEventListener") (nl1 (strLit "x")))]
      { technicalNodes := [[0, 0]] } (strLit "x") =
      .ok { technicalNodes := [[0, 0]] } :=
  ⟨claim_c2.1 cfgDefault [0, 0] {} (.ident "addEventListener")
      (nl1 (strLit "x")) (by decide),
   claim_c2.2 cfgDefault [0, 0, 1]
      [([0, 0], .call (.ident "addEventListener") (nl1 (strLit "x")))]
      { technicalNodes := [[0, 0]] } (strLit "x") (by decide) (by decide)⟩

/-- **C4 (counterexample).** The claim predicts that `"A1_B-2"` — a
string of uppercase letters, digits, underscores and hyphens — used as a
plain value is always exempt; but `isUpperCase` is `/^[A-Z_-]+$/`, which
has no digits, so `const a = "A1_B-2";` is reported with the generic
message. -/
theorem claim_c4_counterexample :
    ("A1_B-2".toList.all fun c =>
      c.isUpper || c.isDigit || c == '_' || c == '-') = true ∧
    (runLint {} treeC4).map (fun st => st.findings.map (·.message)) =
      .ok [genericMessage] := by
  constructor <;> decide

/-- **C4 (amended).** For every string whose trimmed text is accepted by
`isUpperCase` — nonempty and consisting only of uppercase ASCII letters,
underscores and hyphens, digits excluded — a string literal with that
value is exempt at exit in every syntactic context, under every
configuration and run state. -/
theorem claim_c4 (cfg : Config) (p : NodeId) (anc : Anc) (st : LintState)
    (s raw : String) (h : isUpperCase (jsTrim s) = true) :
    exitStep cfg p anc st (.lit (.str s) raw) = .ok st := by
  cases hV : st.visited.contains p <;>
  cases hT : checkTranslationParents st anc <;>
  cases hTech : checkTechnicalParents st anc <;>
  simp only [exitStep, hV, hT, hTech, h, typeName, strValueOf, isLitTmplText,
    isLitOrTmpl, isString, Option.isSome, Bool.false_eq_true, if_false,
    if_true, Bool.false_and, Bool.true_and, Bool.and_true, Bool.and_false,
    Bool.not_false, Bool.not_true, Bool.or_true, Bool.true_or, Bool.false_or,
    Bool.or_false, beq_self_eq_true, Bool.true_eq_false, String.reduceBEq,
    Bool.or_self, Bool.not_eq_true]

/-- Witness for C4 (amended) at the literal `"A-B_C"`. -/
theorem claim_c4_witness :
    isUpperCase (jsTrim "A-B_C") = true ∧
    exitStep cfgDefault [0] [] {} (.lit (.str "A-B_C") "\"A-B_C\"") = .ok {} :=
  ⟨by decide, claim_c4 cfgDefault [0] [] {} "A-B_C" "\"A-B_C\"" (by decide)⟩

/-- **C5 (counterexample).** The claim predicts a built-in baseline
pattern exempting strings with no alphabetic characters under every
configuration; but the compiled `whitelists` are exactly the mapped
user `ignore` entries, so under the empty configuration
`const a = "123!?";` is reported. -/
theorem claim_c5_counterexample :
    ("123!?".toList.all fun c => !c.isAlpha) = true ∧
    (runLint {} treeC5).map (fun st => st.findings.map (·.message)) =
      .ok [genericMessage] := by
  constructor <;> decide

/-- **C5 (amended).** There is no built-in baseline value pattern: the
compiled pattern list of the empty configuration is empty, so no string
matches any value pattern, and a literal whose text has no alphabetic
characters, such as `"123!?"`, is reported under the default
configuration rather than exempted. -/
theorem claim_c5 :
    (∀ s : String, matchW (compileConfig {}) s = false) ∧
    (runLint {} treeC5).map (fun st => st.findings.map (·.message)) =
      .ok [genericMessage] :=
  ⟨fun _ => rfl, by decide⟩

/-- **C3.** The claim (and the repository's own test suite, which lists
`<div className="primary"></div>` among the valid cases) says the
attribute literal `"primary"` is exempt via a baseline attribute
allow-list; but the current rule compiles no such baseline — the
`JSXAttribute` handler only consults the `ignoreTags` option, which is
empty by default — so the run reports the literal with the
JSX-attribute message. -/
theorem claim_c3 :
    (runLint {} treeC3).map (fun st => st.findings.map (·.message)) =
      .ok [attributeMessage] ∧
    (compileConfig {}).tagAttrWhiteList = [] :=
  ⟨by decide, rfl⟩

/-- **C8.** The claim says exit-time evaluation never throws, naming in
particular a literal with a `JSXOpeningElement` ancestor but no
`JSXAttribute` ancestor; but on `<div {...{a: "foo"}} />` the exit
handler reaches `attribute.name.name` with
`getNearestAncestor(node, 'JSXAttribute')` having returned null, and the
run aborts with a `TypeError`. -/
theorem claim_c8 :
    runLint {} treeC8 = .error .nullAttributeName := by decide

/-- **C1 (counterexample).** The claim predicts that every template
literal with a translation-tagged strict ancestor and a native `${...}`
hole is reported with the placeholder complaint; but in
`addEventListener("x", t(`hello ${name}`))` the template has a
translation-tagged ancestor (the `t(...)` call, at path `[0, 0, 2]`) and
a hole, yet the technical-container check that runs after the complaint
is recorded suppresses the report: the run emits no finding at all. -/
theorem claim_c1_counterexample :
    hasHoleStr (getText tmplHello) = true ∧
    (runLint {} treeC1).map
      (fun st => (st.findings, st.translationNodes.contains [0, 0, 2])) =
      .ok ([], true) := by
  constructor <;> decide

/-- **C1 (amended).** First part: a template literal whose source text
contains a native `${...}` hole and that has a translation-tagged
strict ancestor is reported with the dedicated placeholder complaint
(not the generic one) — provided it was not already marked visited by a
structural handler, no strict ancestor is tagged as a technical
container, and it has no `JSXOpeningElement` strict ancestor (in which
case the JSX-attribute complaint overwrites the placeholder one).
Second and third parts: a translation-contained string literal, and a
translation-contained hole-free template, are exempt — the exit handler
returns with the state unchanged and no finding, under every
configuration and run state. -/
theorem claim_c1 :
    (∀ (cfg : Config) (p : NodeId) (anc : Anc) (st : LintState)
      (quasis : List String) (exprs : NodeList),
      st.visited.contains p = false →
      checkTranslationParents st anc = true →
      hasHoleStr (getText (.tmpl quasis exprs)) = true →
      checkTechnicalParents st anc = false →
      (getNearestAncestor anc "JSXOpeningElement").isNone = true →
      exitStep cfg p anc st (.tmpl quasis exprs) =
        .ok { st with
          complaints :=
            (p, placeholderFinding p (.tmpl quasis exprs)) :: st.complaints,
          findings :=
            st.findings ++ [placeholderFinding p (.tmpl quasis exprs)] }) ∧
    (∀ (cfg : Config) (p : NodeId) (anc : Anc) (st : LintState)
      (v raw : String),
      checkTranslationParents st anc = true →
      exitStep cfg p anc st (.lit (.str v) raw) = .ok st) ∧
    (∀ (cfg : Config) (p : NodeId) (anc : Anc) (st : LintState)
      (quasis : List String) (exprs : NodeList),
      checkTranslationParents st anc = true →
      hasHoleStr (getText (.tmpl quasis exprs)) = false →
      exitStep cfg p anc st (.tmpl quasis exprs) = .ok st) := by
  refine ⟨?_, ?_, ?_⟩
  · intro cfg p anc st quasis exprs hV hT hH hTech hEl
    have hEl' : getNearestAncestor anc "JSXOpeningElement" = none :=
      Option.isNone_iff_eq_none.mp hEl
    simp only [checkTechnicalParents] at hTech
    simp only [exitStep, hV, hT, hH, typeName, strValueOf, isLitTmplText,
      isLitOrTmpl, isString, Option.isSome, setComplaint,
      checkTechnicalParents, report, getComplaint, placeholderFinding, hEl',
      hTech, Bool.false_eq_true, if_false, if_true, Bool.false_and,
      Bool.true_and, Bool.and_true, Bool.and_false, Bool.not_false,
      Bool.not_true, Bool.or_true, Bool.true_or, Bool.false_or, Bool.or_false,
      beq_self_eq_true, Bool.true_eq_false, String.reduceBEq, Bool.or_self,
      Bool.not_eq_true, List.find?, Option.map]
  · intro cfg p anc st v raw hT
    cases hV : st.visited.contains p <;>
    simp only [exitStep, hV, hT, typeName, strValueOf, isLitTmplText,
      isLitOrTmpl, isString, Option.isSome, Bool.false_eq_true, if_false,
      if_true, Bool.false_and, Bool.true_and, Bool.and_true, Bool.and_false,
      Bool.not_false, Bool.not_true, Bool.or_true, Bool.true_or,
      Bool.false_or, Bool.or_false, beq_self_eq_true, Bool.true_eq_false,
      String.reduceBEq, Bool.or_self, Bool.not_eq_true]
  · intro cfg p anc st quasis exprs hT hH
    cases hV : st.visited.contains p <;>
    simp only [exitStep, hV, hT, hH, typeName, strValueOf, isLitTmplText,
      isLitOrTmpl, isString, Option.isSome, Bool.false_eq_true, if_false,
      if_true, Bool.false_and, Bool.true_and, Bool.and_true, Bool.and_false,
      Bool.not_false, Bool.not_true, Bool.or_true, Bool.true_or,
      Bool.false_or, Bool.or_false, beq_self_eq_true, Bool.true_eq_false,
      String.reduceBEq, Bool.or_self, Bool.not_eq_true]

/-- Witness for C1 (amended): under a translation-tagged `t(...)`
ancestor, the template `` `hello ${name}` `` is reported with the
placeholder complaint, while the string literal `"hello"` and the
hole-free template `` `hello` `` are exempt with no finding. -/
theorem claim_c1_witness :
    exitStep cfgDefault [0, 1] [([0], .call (.ident "t") (nl1 tmplHello))]
      { translationNodes := [[0]] } tmplHello =
      .ok { translationNodes := [[0]],
            complaints := [([0, 1], placeholderFinding [0, 1] tmplHello)],
            findings := [placeholderFinding [0, 1] tmplHello] } ∧
    exitStep cfgDefault [0, 1] [([0], .call (.ident "t") (nl1 tmplHello))]
      { translationNodes := [[0]] } (.lit (.str "hello") "\"hello\"") =
      .ok { translationNodes := [[0]] } ∧
    exitStep cfgDefault [0, 1] [([0], .call (.ident "t") (nl1 tmplHello))]
      { translationNodes := [[0]] } (.tmpl ["hello"] .nil) =
      .ok { translationNodes := [[0]] } :=
  ⟨claim_c1.1 cfgDefault [0, 1] [([0], .call (.ident "t") (nl1 tmplHello))]
      { translationNodes := [[0]] } ["hello ", ""] (nl1 (.ident "name"))
      (by decide) (by decide) (by decide) (by decide) (by decide),
   claim_c1.2.1 cfgDefault [0, 1] [([0], .call (.ident "t") (nl1 tmplHello))]
      { translationNodes := [[0]] } "hello" "\"hello\"" (by decide),
   claim_c1.2.2 cfgDefault [0, 1] [([0], .call (.ident "t") (nl1 tmplHello))]
      { translationNodes := [[0]] } ["hello"] .nil (by decide) (by decide)⟩

/-- **C6 (counterexample).** The claim predicts that when a deferred
property complaint was recorded and no exemption applies, the emitted
message is the property-specific one; but in
`<div style={{foo: "bar"}} />` the literal `"bar"` (path
`[0,0,0,0,0,0,0,1]`) gets a deferred property complaint, no exemption
applies, and the emitted message is the JSX-attribute one — the exit
handler overwrote the property complaint. -/
theorem claim_c6_counterexample :
    (runLint {} treeC6).map (fun st =>
      (st.findings.map (·.message),
       (st.complaints.map fun e => (e.1, e.2.message)).contains
         ([0, 0, 0, 0, 0, 0, 0, 1], propertyMessage))) =
      .ok ([attributeMessage], true) := by decide

set_option maxHeartbeats 1000000 in
/-- **C6 (amended).** For a string literal with a recorded complaint:
if any exemption applies at exit (visited mark, translation containment
— which for a plain literal can have no interpolation hole —, technical
containment, empty trimmed text, uppercase text, or a value-pattern
match), no finding at all is emitted; if none applies and the node also
has no `JSXOpeningElement` strict ancestor, the recorded complaint
itself (the property-specific message, not the generic one) is the
emitted finding.  Inside a JSX opening element the attribute-specific
complaint overwrites the recorded one instead. -/
theorem claim_c6 (cfg : Config) (p : NodeId) (anc : Anc) (st : LintState)
    (v raw : String) (c : Finding) (hC : getComplaint st p = some c) :
    ((st.visited.contains p || checkTranslationParents st anc ||
      checkTechnicalParents st anc || jsTrim v == "" ||
      isUpperCase (jsTrim v) || matchW cfg (jsTrim v)) = true →
      exitStep cfg p anc st (.lit (.str v) raw) = .ok st) ∧
    (st.visited.contains p = false →
     checkTranslationParents st anc = false →
     checkTechnicalParents st anc = false →
     (jsTrim v == "") = false →
     isUpperCase (jsTrim v) = false →
     matchW cfg (jsTrim v) = false →
     (getNearestAncestor anc "JSXOpeningElement").isNone = true →
     exitStep cfg p anc st (.lit (.str v) raw) =
       .ok { st with findings := st.findings ++ [c] }) := by
  constructor
  · intro h
    cases hV : st.visited.contains p <;>
    cases hT : checkTranslationParents st anc <;>
    cases hTech : checkTechnicalParents st anc <;>
    cases hE : jsTrim v == "" <;>
    cases hU : isUpperCase (jsTrim v) <;>
    cases hM : matchW cfg (jsTrim v) <;>
    simp_all [exitStep, typeName, strValueOf, isLitTmplText, isLitOrTmpl,
      isString]
  · intro h1 h2 h3 h4 h5 h6 h7
    have hEl' : getNearestAncestor anc "JSXOpeningElement" = none :=
      Option.isNone_iff_eq_none.mp h7
    simp only [exitStep, h1, h2, h3, h4, h5, h6, hEl', hC, report,
      typeName, strValueOf, isLitTmplText, isLitOrTmpl, isString,
      Option.isSome, Bool.false_eq_true, if_false, if_true, Bool.false_and,
      Bool.true_and, Bool.and_true, Bool.and_false, Bool.not_false,
      Bool.not_true, Bool.or_true, Bool.true_or, Bool.false_or,
      Bool.or_false, beq_self_eq_true, Bool.true_eq_false, String.reduceBEq,
      Bool.or_self, Bool.not_eq_true]

/-- Witness for C6 (amended): with a recorded property complaint, an
uppercase value is suppressed entirely, and a non-exempt value in
property position (no JSX ancestor) is reported with the recorded
property complaint. -/
theorem claim_c6_witness :
    exitStep cfgDefault [0, 1]
      [([0], .property (.ident "foo") (strLit "bar") false)]
      { complaints := [([0, 1], samplePropComplaint)] }
      (.lit (.str "FOO") "\"FOO\"") =
      .ok { complaints := [([0, 1], samplePropComplaint)] } ∧
    exitStep cfgDefault [0, 1]
      [([0], .property (.ident "foo") (strLit "bar") false)]
      { complaints := [([0, 1], samplePropComplaint)] }
      (.lit (.str "bar") "\"bar\"") =
      .ok { complaints := [([0, 1], samplePropComplaint)],
            findings := [samplePropComplaint] } :=
  ⟨(claim_c6 cfgDefault [0, 1]
      [([0], .property (.ident "foo") (strLit "bar") false)]
      { complaints := [([0, 1], samplePropComplaint)] }
      "FOO" "\"FOO\"" samplePropComplaint (by decide)).1 (by decide),
   (claim_c6 cfgDefault [0, 1]
      [([0], .property (.ident "foo") (strLit "bar") false)]
      { complaints := [([0, 1], samplePropComplaint)] }
      "bar" "\"bar\"" samplePropComplaint (by decide)).2
      (by decide) (by decide) (by decide) (by decide) (by decide) (by decide)
      (by decide)⟩

/-- **C7.** A configured callee entry containing a dot lands in the
`complex` whitelist, and any call whose member-access callee's dotted
source text ends with `"." ++ entry` is recognized as technical; with
`ignoreCallee: ["socket.on"]`, `this.socket.on(...)` and `socket.on(...)`
are recognized while `xsocket.on(...)` and `this.xsocket.on(...)` are
not. -/
theorem claim_c7 :
    (∀ (o : Options) (c : String) (obj : Node) (prop : String)
      (args : NodeList),
      c ∈ (generateCalleeWhitelists o).complex →
      jsEndsWith ("." ++ getText (.member obj prop)) ("." ++ c) = true →
      isTechnicalFunctionCall (compileConfig o) (.call (.member obj prop) args)
        = true) ∧
    ("socket.on" ∈
        (generateCalleeWhitelists { ignoreCallee := ["socket.on"] }).complex ∧
     isTechnicalFunctionCall cfgSocketOn
        (.call (.member (.member .thisExpr "socket") "on") .nil) = true ∧
     isTechnicalFunctionCall cfgSocketOn
        (.call (.member (.ident "socket") "on") .nil) = true ∧
     isTechnicalFunctionCall cfgSocketOn
        (.call (.member (.ident "xsocket") "on") .nil) = false ∧
     isTechnicalFunctionCall cfgSocketOn
        (.call (.member (.member .thisExpr "xsocket") "on") .nil) = false) := by
  constructor
  · intro o c obj prop args hc hend
    simp only [isTechnicalFunctionCall, memberCalleeCheck]
    split
    · rfl
    · split
      · rfl
      · exact List.any_eq_true.mpr ⟨c, hc, hend⟩
  · refine ⟨by decide, by decide, by decide, by decide, by decide⟩

/-- Witness for C7: the dotted-suffix premises hold for
`this.socket.on` under `ignoreCallee: ["socket.on"]`. -/
theorem claim_c7_witness :
    isTechnicalFunctionCall (compileConfig { ignoreCallee := ["socket.on"] })
      (.call (.member (.member .thisExpr "socket") "on") .nil) = true :=
  claim_c7.1 { ignoreCallee := ["socket.on"] } "socket.on"
    (.member .thisExpr "socket") "on" .nil (by decide) (by decide)

/-! ## Helper lemmas: the entry handlers never report and never unmark

Each pre-order handler leaves `findings` untouched, and none removes a
`visited` mark; the `BinaryExpression` handler adds one for a non-`+`
operand.  Used to settle C10. -/

theorem entryImportDeclLit_findings (p : NodeId) (anc : Anc) (st : LintState)
    (n : Node) : (entryImportDeclLit p anc st n).findings = st.findings := by
  unfold entryImportDeclLit addVisited
  repeat' first | rfl | split | simp only []

theorem entryExportAllLit_findings (p : NodeId) (anc : Anc) (st : LintState)
    (n : Node) : (entryExportAllLit p anc st n).findings = st.findings := by
  unfold entryExportAllLit addVisited
  repeat' first | rfl | split | simp only []

theorem entryExportNamedLit_findings (p : NodeId) (anc : Anc) (st : LintState)
    (n : Node) : (entryExportNamedLit p anc st n).findings = st.findings := by
  unfold entryExportNamedLit addVisited
  repeat' first | rfl | split | simp only []

theorem entryJSXOpeningElement_findings (anc : Anc) (st : LintState)
    (n : Node) : (entryJSXOpeningElement anc st n).findings = st.findings := by
  unfold entryJSXOpeningElement
  repeat' first | rfl | split | simp only []

theorem entryJSXAttribute_findings (cfg : Config) (p : NodeId) (anc : Anc)
    (st : LintState) (n : Node) :
    (entryJSXAttribute cfg p anc st n).findings = st.findings := by
  unfold entryJSXAttribute
  repeat' first | rfl | split | simp only []

theorem entryTSModuleLit_findings (p : NodeId) (anc : Anc) (st : LintState)
    (n : Node) : (entryTSModuleLit p anc st n).findings = st.findings := by
  unfold entryTSModuleLit addVisited
  repeat' first | rfl | split | simp only []

theorem entryTSEnumLit_findings (p : NodeId) (anc : Anc) (st : LintState)
    (n : Node) : (entryTSEnumLit p anc st n).findings = st.findings := by
  unfold entryTSEnumLit addVisited
  repeat' first | rfl | split | simp only []

theorem entryTSLiteralTypeLit_findings (p : NodeId) (anc : Anc)
    (st : LintState) (n : Node) :
    (entryTSLiteralTypeLit p anc st n).findings = st.findings := by
  unfold entryTSLiteralTypeLit addVisited
  repeat' first | rfl | split | simp only []

theorem entryVarDeclaratorLit_findings (p : NodeId) (anc : Anc)
    (st : LintState) (n : Node) :
    (entryVarDeclaratorLit p anc st n).findings = st.findings := by
  unfold entryVarDeclaratorLit addVisited
  repeat' first | rfl | split | simp only []

theorem entryTSAsLit_findings (p : NodeId) (anc : Anc) (st : LintState)
    (n : Node) : (entryTSAsLit p anc st n).findings = st.findings := by
  unfold entryTSAsLit addVisited
  repeat' first | rfl | split | simp only []

theorem entryPropertyLit_findings (cfg : Config) (p : NodeId) (anc : Anc)
    (st : LintState) (n : Node) :
    (entryPropertyLit cfg p anc st n).findings = st.findings := by
  unfold entryPropertyLit addVisited setComplaint
  repeat' first | rfl | split | simp only []

theorem entryBinaryLit_findings (p : NodeId) (anc : Anc) (st : LintState)
    (n : Node) : (entryBinaryLit p anc st n).findings = st.findings := by
  unfold entryBinaryLit addVisited
  repeat' first | rfl | split | simp only []

theorem entryTaggedTemplateExpr_findings (p : NodeId) (st : LintState)
    (n : Node) : (entryTaggedTemplateExpr p st n).findings = st.findings := by
  unfold entryTaggedTemplateExpr
  repeat' first | rfl | split | simp only []

theorem entryCallExpr_findings (cfg : Config) (p : NodeId) (st : LintState)
    (n : Node) : (entryCallExpr cfg p st n).findings = st.findings := by
  unfold entryCallExpr
  repeat' first | rfl | split | simp only []

theorem entrySwitchCaseLit_findings (p : NodeId) (anc : Anc) (st : LintState)
    (n : Node) : (entrySwitchCaseLit p anc st n).findings = st.findings := by
  unfold entrySwitchCaseLit addVisited
  repeat' first | rfl | split | simp only []

theorem entryTaggedTemplateExpr_visited (p : NodeId) (st : LintState)
    (n : Node) : (entryTaggedTemplateExpr p st n).visited = st.visited := by
  unfold entryTaggedTemplateExpr
  repeat' first | rfl | split | simp only []

theorem entryCallExpr_visited (cfg : Config) (p : NodeId) (st : LintState)
    (n : Node) : (entryCallExpr cfg p st n).visited = st.visited := by
  unfold entryCallExpr
  repeat' first | rfl | split | simp only []

theorem entrySwitchCaseLit_vis (p q : NodeId) (anc : Anc) (st : LintState)
    (n : Node) (h : st.visited.contains q = true) :
    (entrySwitchCaseLit p anc st n).visited.contains q = true := by
  unfold entrySwitchCaseLit addVisited
  repeat' first
    | exact h
    | (simp only [List.contains_cons, h, Bool.or_true])
    | split
    | simp only []

theorem entryBinaryLit_adds (p pp : NodeId) (anc : Anc) (st : LintState)
    (op : String) (l r : Node) (v : LitValue) (raw : String)
    (hop : (op != "+") = true) :
    (entryBinaryLit p ((pp, .binary op l r) :: anc) st
      (.lit v raw)).visited.contains p = true := by
  unfold entryBinaryLit addVisited
  simp [isLitOrTmpl, typeName, hop, List.contains_cons]

theorem entryStep_no_jsx_parent (cfg : Config) (p : NodeId) (anc : Anc)
    (st : LintState) (n : Node)
    (h : (isLitOrTmpl n && parentType anc "JSXElement") = false) :
    entryStep cfg p anc st n = .ok (entryChainPure cfg p anc st n) := by
  unfold entryStep entryJSXElementChildLit entryChainPure
  simp [h, Except.bind]

theorem visitNode_lit (cfg : Config) (p : NodeId) (anc : Anc) (st : LintState)
    (v : LitValue) (raw : String) :
    visitNode cfg p anc st (.lit v raw) =
      (entryStep cfg p anc st (.lit v raw)).bind
        (fun st1 => exitStep cfg p anc st1 (.lit v raw)) := by
  rcases h : entryStep cfg p anc st (.lit v raw) with e | st1 <;>
  · unfold visitNode
    rw [h]
    rfl

theorem exitStep_visited (cfg : Config) (p : NodeId) (anc : Anc)
    (st : LintState) (n : Node) (h : st.visited.contains p = true) :
    exitStep cfg p anc st n = .ok st := by
  unfold exitStep
  split
  · rfl
  · split
    · rfl
    · simp [h]

/-- **C10.** A string literal that is the direct child of a binary
expression whose operator is not `'+'` is marked visited by the
`BinaryExpression` handler and produces no finding at its own visit
(entry, no children, exit); whereas under `'+'` no such exemption
applies: `name === 'Android'` yields no findings while `a + "b"` is
reported with the generic message. -/
theorem claim_c10 :
    (∀ (cfg : Config) (p pp : NodeId) (anc : Anc) (st : LintState)
      (op : String) (l r : Node) (v : LitValue) (raw : String),
      op ≠ "+" →
      (visitNode cfg p ((pp, .binary op l r) :: anc) st (.lit v raw)).map
        (·.findings) = .ok st.findings) ∧
    findingsOf (runLint {} treeC10eq) = [] ∧
    (findingsOf (runLint {} treeC10plus)).map (·.message) = [genericMessage] := by
  refine ⟨?_, by decide, by decide⟩
  intro cfg p pp anc st op l r v raw hop
  have h1 : (op == "+") = false := beq_eq_false_iff_ne.mpr hop
  have hop' : (op != "+") = true := by simp [bne, h1]
  have hstep : entryStep cfg p ((pp, .binary op l r) :: anc) st (.lit v raw) =
      .ok (entryChainPure cfg p ((pp, .binary op l r) :: anc) st
        (.lit v raw)) :=
    entryStep_no_jsx_parent cfg p ((pp, .binary op l r) :: anc) st
      (.lit v raw) rfl
  have hvis : (entryChainPure cfg p ((pp, .binary op l r) :: anc) st
      (.lit v raw)).visited.contains p = true := by
    unfold entryChainPure
    apply entrySwitchCaseLit_vis
    rw [entryCallExpr_visited, entryTaggedTemplateExpr_visited]
    exact entryBinaryLit_adds p pp ((pp, .binary op l r) :: anc) _ op l r v
      raw hop'
  have hfind : (entryChainPure cfg p ((pp, .binary op l r) :: anc) st
      (.lit v raw)).findings = st.findings := by
    unfold entryChainPure
    simp only [entrySwitchCaseLit_findings, entryCallExpr_findings,
      entryTaggedTemplateExpr_findings, entryBinaryLit_findings,
      entryPropertyLit_findings, entryTSAsLit_findings,
      entryVarDeclaratorLit_findings, entryTSLiteralTypeLit_findings,
      entryTSEnumLit_findings, entryTSModuleLit_findings,
      entryJSXAttribute_findings, entryJSXOpeningElement_findings,
      entryExportNamedLit_findings, entryExportAllLit_findings,
      entryImportDeclLit_findings]
  rw [visitNode_lit, hstep]
  show (exitStep cfg p ((pp, .binary op l r) :: anc)
      (entryChainPure cfg p ((pp, .binary op l r) :: anc) st (.lit v raw))
      (.lit v raw)).map (·.findings) = .ok st.findings
  rw [exitStep_visited _ _ _ _ _ hvis]
  exact congrArg Except.ok hfind

/-- Witness for C10: the general part applied to `name === 'Android'`'s
literal. -/
theorem claim_c10_witness :
    (visitNode cfgDefault [0, 0, 1]
      ([([0, 0], .binary "===" (.ident "name") (strLit "Android")),
        ([0], .exprStmt (.binary "===" (.ident "name") (strLit "Android"))),
        ([], treeC10eq)]) {} (.lit (.str "Android") "\"Android\"")).map
      (·.findings) = .ok ([] : List Finding) :=
  claim_c10.1 cfgDefault [0, 0, 1] [0, 0]
    [([0], .exprStmt (.binary "===" (.ident "name") (strLit "Android"))),
     ([], treeC10eq)] {} "===" (.ident "name") (strLit "Android")
    (.str "Android") "\"Android\"" (by decide)

end I18next





